import Mathlib

/-!
Shallow embedding of the temporal-embedding extraction script
(`scripts/extract_embeddings.py`).

Modelling conventions:
* floating-point values (timestamps, embedding entries) are idealized as
  rationals; the square roots taken by `np.std` and `np.linalg.norm` live in `ℝ`;
* the external backends (filesystem, librosa decoding, the Whisper model, the
  GPT-2 forward pass, the GPT-2 tokenizer) are abstract function parameters;
* file-system side effects of the pipeline are recorded as an explicit,
  ordered list of `Effect`s.
-/

/-- Model of one word entry produced by the transcription stage: the dict with
keys word / start / end built in `transcribe_with_timestamps`. -/
structure WordInfo where
  word : String
  start : ℚ
  end_ : ℚ
deriving DecidableEq

/-- Model of a rectangular 3-D numpy float array, as produced by
`extract_gpt2_embeddings`: shape `(shape0, shape1, shape2)` together with an
entry lookup (token position, layer index, embedding dimension). -/
structure Tensor3 where
  shape0 : Nat
  shape1 : Nat
  shape2 : Nat
  entry : Nat → Nat → Nat → ℚ

/-- Slice `embeddings[t, l, :]`: the per-layer vector at one token position. -/
def Tensor3.vec (e : Tensor3) (t l : Nat) : List ℚ :=
  (List.range e.shape2).map (fun d => e.entry t l d)

/-- Semantics of `np.mean` on a 1-D array: the sum divided by the length. -/
def npMean (v : List ℚ) : ℚ := v.sum / (v.length : ℚ)

/-- Semantics of `np.std` on a 1-D array (default ddof = 0): the square root of
the mean of the squared deviations from the mean. -/
noncomputable def npStd (v : List ℚ) : ℝ :=
  Real.sqrt ((npMean (v.map (fun x => (x - npMean v) ^ 2)) : ℚ) : ℝ)

/-- Semantics of `np.linalg.norm` on a 1-D array: the square root of the sum of
the squares. -/
noncomputable def npLinalgNorm (v : List ℚ) : ℝ :=
  Real.sqrt (((v.map (fun x => x ^ 2)).sum : ℚ) : ℝ)

/-- Arithmetic mean as the spec words it: the sum over the count. -/
def arithmeticMean (v : List ℚ) : ℚ := v.sum / (v.length : ℚ)

/-- Population standard deviation as the spec words it: the square root of the
sum of squared deviations from the mean, divided by the count. -/
noncomputable def populationStd (v : List ℚ) : ℝ :=
  Real.sqrt ((((v.map (fun x => (x - arithmeticMean v) ^ 2)).sum / (v.length : ℚ) : ℚ)) : ℝ)

/-- Euclidean (L2) norm as the spec words it: the square root of the sum of
squares. -/
noncomputable def euclideanNorm (v : List ℚ) : ℝ :=
  Real.sqrt (((v.map (fun x => x ^ 2)).sum : ℚ) : ℝ)

/-- The three statistics columns (`layer_i_mean`, `layer_i_std`,
`layer_i_norm`) a row carries for one layer. -/
structure LayerStats where
  mean : ℚ
  std : ℝ
  norm : ℝ

/-- One row of the aligned table built by `align_embeddings_to_words`:
timestamp, word, token, then the per-layer statistics in layer order. -/
structure AlignedRow where
  timestamp : ℚ
  word : String
  token : String
  layers : List LayerStats

instance : Inhabited LayerStats := ⟨⟨0, 0, 0⟩⟩

instance : Inhabited AlignedRow := ⟨⟨0, "", "", []⟩⟩

/-- Model of one entry of the `token_positions` list in
`align_embeddings_to_words`: the dict with keys word / start / end /
token_idx. -/
structure TokenPos where
  word : String
  start : ℚ
  end_ : ℚ
  token_idx : Nat
deriving DecidableEq

instance : Inhabited TokenPos := ⟨⟨"", 0, 0, 0⟩⟩

/-- Inner loop of the first phase of `align_embeddings_to_words`: for each of
the word's re-tokenized token ids (`for _ in word_tokens`), if the cursor is
still below the token count, append a position entry and advance the cursor;
otherwise do nothing for this iteration. Returns the appended entries and the
final cursor. -/
def emitPositions (w : WordInfo) (numTokens : Nat) : Nat → Nat → List TokenPos × Nat
  | 0, cur => ([], cur)
  | n + 1, cur =>
    if cur < numTokens then
      (⟨w.word, w.start, w.end_, cur⟩ :: (emitPositions w numTokens n (cur + 1)).1,
        (emitPositions w numTokens n (cur + 1)).2)
    else
      emitPositions w numTokens n cur

/-- First phase of `align_embeddings_to_words`: walk the words in order with a
single token cursor (`current_pos`), re-tokenizing each word in isolation via
`encode` and emitting one `TokenPos` per re-tokenized unit while the cursor is
in bounds. -/
def token_positions (encode : String → List Nat) (numTokens : Nat) :
    List WordInfo → Nat → List TokenPos
  | [], _ => []
  | w :: ws, cur =>
    (emitPositions w numTokens (encode w.word).length cur).1 ++
      token_positions encode numTokens ws (emitPositions w numTokens (encode w.word).length cur).2

/-- Newline escaping `token.replace("\n", "\\n")` applied by the source to the
token column, written character by character (equivalent to `str.replace` here
because the pattern is the single character `\n`, so occurrences can neither
overlap nor span characters). -/
def escapeNewlines (s : String) : String :=
  String.mk (s.data.flatMap (fun c => if c = '\n' then ['\\', 'n'] else [c]))

/-- Second phase of `align_embeddings_to_words`: one output row per
`TokenPos`, carrying the timestamp (the word's start), the word, the token at
`token_idx` with newlines escaped, and mean / std / norm for every layer. -/
noncomputable def rowOf (tokens : List String) (embeddings : Tensor3) (pos : TokenPos) :
    AlignedRow :=
  { timestamp := pos.start
    word := pos.word
    token := escapeNewlines (tokens.getD pos.token_idx (""))
    layers := (List.range embeddings.shape1).map (fun layer_idx =>
      { mean := npMean (embeddings.vec pos.token_idx layer_idx)
        std := npStd (embeddings.vec pos.token_idx layer_idx)
        norm := npLinalgNorm (embeddings.vec pos.token_idx layer_idx) }) }

/-- Model of `align_embeddings_to_words`: build the token-position list with
the cursor starting at 0, map each position to an `AlignedRow`, and return the
table together with the embeddings tensor and the token list it was given. -/
noncomputable def align_embeddings_to_words (encode : String → List Nat)
    (words_with_timestamps : List WordInfo) (tokens : List String) (embeddings : Tensor3) :
    List AlignedRow × Tensor3 × List String :=
  ((token_positions encode tokens.length words_with_timestamps 0).map (rowOf tokens embeddings),
    embeddings, tokens)

/-- Per-layer statistics of the vector at one token position, worded as the
spec's per-row layer reduction. -/
noncomputable def specLayerStats (embeddings : Tensor3) (cursor : Nat) : List LayerStats :=
  (List.range embeddings.shape1).map (fun i =>
    { mean := arithmeticMean (embeddings.vec cursor i)
      std := populationStd (embeddings.vec cursor i)
      norm := euclideanNorm (embeddings.vec cursor i) })

/-- Spec-worded emission for a single word: for each unit of the word's
re-tokenized count, if the cursor is still within the bounds of the token
sequence, emit one row (the word's timestamp, the word's text, and the token
string at the cursor, rendered through `render`) and advance the cursor by
one; once the cursor reaches or exceeds the token sequence length, silently
stop emitting for that word. `render` is the identity for the claim read
literally, and `escapeNewlines` for the amended claim. -/
noncomputable def alignerSpecEmit (render : String → String) (tokens : List String)
    (embeddings : Tensor3) (w : WordInfo) : Nat → Nat → List AlignedRow × Nat
  | 0, cur => ([], cur)
  | n + 1, cur =>
    if cur < tokens.length then
      ({ timestamp := w.start
         word := w.word
         token := render (tokens.getD cur (""))
         layers := specLayerStats embeddings cur } ::
          (alignerSpecEmit render tokens embeddings w n (cur + 1)).1,
        (alignerSpecEmit render tokens embeddings w n (cur + 1)).2)
    else
      ([], cur)

/-- Spec-worded greedy aligner: a single monotonically increasing token cursor
starting at 0; for each word in order, re-tokenize the word's text in
isolation to obtain a count and emit rows per `alignerSpecEmit`. -/
noncomputable def alignerSpec (render : String → String) (encode : String → List Nat)
    (tokens : List String) (embeddings : Tensor3) : List WordInfo → Nat → List AlignedRow
  | [], _ => []
  | w :: ws, cur =>
    (alignerSpecEmit render tokens embeddings w (encode w.word).length cur).1 ++
      alignerSpec render encode tokens embeddings ws
        (alignerSpecEmit render tokens embeddings w (encode w.word).length cur).2

/-- Name of the statistics column for layer `i` and statistic `stat`:
`layer_{i}_{stat}`. -/
def layerColName (i : Nat) (stat : String) : String :=
  "layer_" ++ toString i ++ "_" ++ stat

/-- Keys of one row dict of the aligned table, in the insertion order used by
`align_embeddings_to_words`: timestamp, word, token, then mean / std / norm
for each layer in layer order. -/
def rowKeys (r : AlignedRow) : List String :=
  ["timestamp", "word", "token"] ++
    (List.range r.layers.length).flatMap (fun i =>
      [layerColName i ("mean"), layerColName i ("std"), layerColName i ("norm")])

/-- Columns of the pandas DataFrame built from a list of row dicts that all
share the same keys: the keys of the first row, in first-row order (empty for
an empty table). -/
def dfColumns : List AlignedRow → List String
  | [] => []
  | r :: _ => rowKeys r

/-- Column names `layer_0_{metric}, ..., layer_{n-1}_{metric}` looked up by
`visualize_embeddings`. -/
def layer_cols (num_layers : Nat) (metric : String) : List String :=
  (List.range num_layers).map (fun i => layerColName i metric)

/-- Observable outcome of `visualize_embeddings`: whether the warning was
printed, and the image path written (if any). -/
structure VisOutcome where
  warned : Bool
  written : Option String
deriving DecidableEq

/-- Model of `visualize_embeddings`: if not all per-layer columns of the
requested metric are present in the table, print a warning and return without
writing; otherwise render the figure and write it to `output_path`. -/
def visualize_embeddings (df : List AlignedRow) (embeddings : Tensor3)
    (output_path : String) (metric : String) : VisOutcome :=
  if ((layer_cols embeddings.shape1 metric).all fun col => (dfColumns df).contains col) = false then
    { warned := true, written := none }
  else
    { warned := false, written := some output_path }

/-- Observable outcome of `load_audio`: the raised error (FileNotFoundError or
RuntimeError) or the decoded signal. -/
inductive LoadOutcome where
  | notFound (msg : String)
  | loadErr (msg : String)
  | ok (audio : List ℚ)
deriving DecidableEq

/-- Model of `load_audio`: first check existence via the filesystem oracle
`fsExists` and raise FileNotFoundError if the path is absent; otherwise decode
through the librosa oracle `decode` (called with the target sample rate and
mono set to true), wrapping any decode failure in a RuntimeError. -/
def load_audio (fsExists : String → Bool) (decode : String → Nat → Bool → Except String (List ℚ))
    (audio_path : String) (sr : Nat) : LoadOutcome :=
  if fsExists audio_path = false then
    .notFound ("Audio file not found: " ++ audio_path)
  else
    match decode audio_path sr true with
    | .ok audio => .ok audio
    | .error e =>
      .loadErr ("Failed to load audio file: " ++ e ++
        "\nSupported formats: WAV, MP3, FLAC, OGG, M4A")

/-- Result of the transcription stage: the full text plus the word entries. -/
structure Transcription where
  text : String
  words : List WordInfo

/-- Python exception kinds distinguished by the entry point's handlers. -/
inductive PyErr where
  | fileNotFound (msg : String)
  | runtimeError (msg : String)
  | keyboardInterrupt
  | other (msg : String)
deriving DecidableEq

/-- Model of `transcribe_with_timestamps`: run the Whisper oracle and wrap any
failure in a RuntimeError. -/
def transcribe_with_timestamps (transcribeRaw : List ℚ → Except String Transcription)
    (audio : List ℚ) : Except PyErr Transcription :=
  match transcribeRaw audio with
  | .ok r => .ok r
  | .error e => .error (.runtimeError ("Transcription failed: " ++ e))

/-- Model of `extract_gpt2_embeddings`: tokenize the text, decode each token
id in isolation, run the forward pass (which may raise), keep the hidden
states with the initial embedding layer dropped, and permute to
(token, layer, dimension). `forward` returns the tuple of `n_layer + 1` hidden
state matrices as a function of (layer, position, dimension). -/
def extract_gpt2_embeddings (tokenize : String → List Nat) (decodeToken : Nat → String)
    (n_layer n_embd : Nat) (forward : List Nat → Except PyErr (Nat → Nat → Nat → ℚ))
    (text : String) : Except PyErr (Tensor3 × List String) :=
  let input_ids := tokenize text
  let tokens := input_ids.map (fun token_id => decodeToken token_id)
  match forward input_ids with
  | .error e => .error e
  | .ok hidden_states =>
    let layer_embeddings := ((List.range (n_layer + 1)).map (fun l => hidden_states l)).drop 1
    .ok ({ shape0 := input_ids.length
           shape1 := layer_embeddings.length
           shape2 := n_embd
           entry := fun t l d => (layer_embeddings.getD l (fun _ _ => 0)) t d }, tokens)

/-- File-system side effects the pipeline performs, in order. -/
inductive Effect where
  | mkdirParents (dir : String)
  | writeCsv (path : String) (header : List String) (dataRows : Nat)
  | writeNpy (path : String)
  | writePng (path : String)
deriving DecidableEq

/-- Whether an effect writes a file (directory creation is not a file). -/
def Effect.isFileWrite : Effect → Bool
  | .mkdirParents _ => false
  | .writeCsv _ _ _ => true
  | .writeNpy _ => true
  | .writePng _ => true

/-- Model of `save_embeddings`: write the table as CSV (one header row holding
the DataFrame columns, then one line per row, no index column), and, when the
full tensor is passed, write it next to the CSV with `.csv` replaced by
`_full.npy`. -/
def save_embeddings (df : List AlignedRow) (output_path : String)
    (embeddings : Option Tensor3) : List Effect :=
  [Effect.writeCsv output_path (dfColumns df) df.length] ++
    (match embeddings with
     | some _ => [Effect.writeNpy (output_path.replace (".csv") ("_full.npy"))]
     | none => [])

/-- Semantics of `pathlib.Path(p).stem`: the final path component without its
last extension. -/
def stem (p : String) : String :=
  let base := (p.splitOn ("/")).getLastD p
  match base.splitOn (".") with
  | [] => base
  | [b] => b
  | parts => String.intercalate (".") parts.dropLast

/-- External oracles the pipeline depends on: the filesystem, the librosa
decoder, the Whisper model, and the GPT-2 tokenizer/model. `tokenize` models
`self.tokenizer(text)` and `encode` models
`self.tokenizer.encode(word, add_special_tokens=False)`; both are call modes
of the same tokenizer object in the source. -/
structure PipelineCfg where
  fsExists : String → Bool
  decode : String → Nat → Bool → Except String (List ℚ)
  transcribeRaw : List ℚ → Except String Transcription
  tokenize : String → List Nat
  decodeToken : Nat → String
  n_layer : Nat
  n_embd : Nat
  forward : List Nat → Except PyErr (Nat → Nat → Nat → ℚ)
  encode : String → List Nat

/-- Model of `process_audio_file`: create the output directory, derive the
output paths from the audio file's stem, then run load → transcribe → extract
→ align → save → visualize, stopping at the first raised error. Returns the
result (or the propagated exception) together with the ordered file-system
effects. -/
noncomputable def process_audio_file (cfg : PipelineCfg) (audio_path : String)
    (output_dir : String) : Except PyErr (List AlignedRow × String × String) × List Effect :=
  let csv_path := output_dir ++ "/" ++ stem audio_path ++ "_embeddings.csv"
  let plot_path := output_dir ++ "/" ++ stem audio_path ++ "_visualization.png"
  let effs0 := [Effect.mkdirParents output_dir]
  match load_audio cfg.fsExists cfg.decode audio_path 16000 with
  | .notFound m => (.error (.fileNotFound m), effs0)
  | .loadErr m => (.error (.runtimeError m), effs0)
  | .ok audio =>
    match transcribe_with_timestamps cfg.transcribeRaw audio with
    | .error e => (.error e, effs0)
    | .ok transcription =>
      match extract_gpt2_embeddings cfg.tokenize cfg.decodeToken cfg.n_layer cfg.n_embd
          cfg.forward transcription.text with
      | .error e => (.error e, effs0)
      | .ok (embeddings0, tokens0) =>
        let aligned := align_embeddings_to_words cfg.encode transcription.words tokens0 embeddings0
        let effs1 := effs0 ++ save_embeddings aligned.1 csv_path (some aligned.2.1)
        let vis := visualize_embeddings aligned.1 aligned.2.1 plot_path ("norm")
        let effs2 := effs1 ++ (match vis.written with
          | some p => [Effect.writePng p]
          | none => [])
        (.ok (aligned.1, csv_path, plot_path), effs2)

/-- Exit code produced by `main`'s exception handlers: 0 on success, 1 on
FileNotFoundError, RuntimeError or any unexpected exception, 130 on
KeyboardInterrupt. -/
def exit_code {α : Type} : Except PyErr α → Nat
  | .ok _ => 0
  | .error (.fileNotFound _) => 1
  | .error (.runtimeError _) => 1
  | .error .keyboardInterrupt => 130
  | .error (.other _) => 1

/-- Message `main` prints to standard error for each outcome (the interrupt
message goes to standard output, hence `none` here). -/
def main_stderr {α : Type} : Except PyErr α → Option String
  | .ok _ => none
  | .error (.fileNotFound m) => some ("\nError: " ++ m)
  | .error (.runtimeError m) => some ("\nError: " ++ m)
  | .error .keyboardInterrupt => none
  | .error (.other m) => some ("\nUnexpected error: " ++ m)

/-- Model of the entry point `main` after argument parsing: run the pipeline
and translate the outcome into an exit code, a standard-error message, and the
performed file-system effects. -/
noncomputable def main (cfg : PipelineCfg) (audio_file : String) (output_dir : String) :
    Nat × Option String × List Effect :=
  (exit_code (process_audio_file cfg audio_file output_dir).1,
   main_stderr (process_audio_file cfg audio_file output_dir).1,
   (process_audio_file cfg audio_file output_dir).2)

/-! Helper lemmas about the aligner's cursor loop. -/

theorem emitPositions_of_le (w : WordInfo) (N : Nat) :
    ∀ n cur, N ≤ cur → emitPositions w N n cur = ([], cur) := by
  intro n
  induction n with
  | zero => intro cur _; rfl
  | succ n ih =>
    intro cur h
    simp only [emitPositions, if_neg (Nat.not_lt.mpr h)]
    exact ih cur h

theorem emitPositions_snd (w : WordInfo) (N : Nat) :
    ∀ n cur, (emitPositions w N n cur).2 = cur + (emitPositions w N n cur).1.length := by
  intro n
  induction n with
  | zero => intro cur; rfl
  | succ n ih =>
    intro cur
    by_cases h : cur < N
    · simp only [emitPositions, if_pos h, List.length_cons]
      rw [ih (cur + 1)]
      omega
    · simp only [emitPositions, if_neg h]
      exact ih cur

theorem emitPositions_snd_le (w : WordInfo) (N : Nat) :
    ∀ n cur, cur ≤ N → (emitPositions w N n cur).2 ≤ N := by
  intro n
  induction n with
  | zero => intro cur h; exact h
  | succ n ih =>
    intro cur h
    by_cases hc : cur < N
    · simp only [emitPositions, if_pos hc]
      exact ih (cur + 1) hc
    · rw [emitPositions_of_le w N (n + 1) cur (Nat.le_of_not_lt hc)]
      exact h

theorem emitPositions_map_idx (w : WordInfo) (N : Nat) :
    ∀ n cur, (emitPositions w N n cur).1.map TokenPos.token_idx =
      List.range' cur (emitPositions w N n cur).1.length := by
  intro n
  induction n with
  | zero => intro cur; rfl
  | succ n ih =>
    intro cur
    by_cases h : cur < N
    · simp only [emitPositions, if_pos h, List.map_cons, List.length_cons, List.range'_succ]
      rw [ih (cur + 1)]
    · simp only [emitPositions, if_neg h]
      exact ih cur

theorem token_positions_of_le (encode : String → List Nat) (N : Nat) :
    ∀ ws cur, N ≤ cur → token_positions encode N ws cur = [] := by
  intro ws
  induction ws with
  | nil => intro cur _; rfl
  | cons w ws ih =>
    intro cur h
    simp only [token_positions, emitPositions_of_le w N _ cur h, List.nil_append]
    exact ih cur h

theorem token_positions_spec (encode : String → List Nat) (N : Nat) :
    ∀ (ws : List WordInfo) (cur : Nat), cur ≤ N →
      (token_positions encode N ws cur).map TokenPos.token_idx =
        List.range' cur (token_positions encode N ws cur).length ∧
      cur + (token_positions encode N ws cur).length ≤ N := by
  intro ws
  induction ws with
  | nil =>
    intro cur h
    exact ⟨rfl, by simpa using h⟩
  | cons w ws ih =>
    intro cur h
    have hsnd := emitPositions_snd w N (encode w.word).length cur
    have hle := emitPositions_snd_le w N (encode w.word).length cur h
    obtain ⟨ih1, ih2⟩ := ih (emitPositions w N (encode w.word).length cur).2 hle
    simp only [token_positions, List.map_append, List.length_append]
    constructor
    · rw [emitPositions_map_idx, ih1, hsnd, List.range'_append_1]
      congr 1
      omega
    · omega

/-! Helper lemmas relating the numpy statistics to the spec's wording and the
source's row construction to the spec's greedy emission. -/

theorem npMean_eq_arithmeticMean (v : List ℚ) : npMean v = arithmeticMean v := rfl

theorem npStd_eq_populationStd (v : List ℚ) : npStd v = populationStd v := by
  unfold npStd populationStd npMean arithmeticMean
  rw [List.length_map]

theorem npLinalgNorm_eq_euclideanNorm (v : List ℚ) : npLinalgNorm v = euclideanNorm v := rfl

theorem rowOf_eq_spec (tokens : List String) (embeddings : Tensor3) (p : TokenPos) :
    rowOf tokens embeddings p =
      { timestamp := p.start
        word := p.word
        token := escapeNewlines (tokens.getD p.token_idx (""))
        layers := specLayerStats embeddings p.token_idx } := by
  simp only [rowOf, specLayerStats, npMean_eq_arithmeticMean, npStd_eq_populationStd,
    npLinalgNorm_eq_euclideanNorm]

theorem emit_eq_specEmit (tokens : List String) (embeddings : Tensor3) (w : WordInfo) :
    ∀ n cur,
      (emitPositions w tokens.length n cur).1.map (rowOf tokens embeddings) =
        (alignerSpecEmit escapeNewlines tokens embeddings w n cur).1 ∧
      (emitPositions w tokens.length n cur).2 =
        (alignerSpecEmit escapeNewlines tokens embeddings w n cur).2 := by
  intro n
  induction n with
  | zero => intro cur; exact ⟨rfl, rfl⟩
  | succ n ih =>
    intro cur
    by_cases h : cur < tokens.length
    · obtain ⟨ih1, ih2⟩ := ih (cur + 1)
      constructor
      · simp only [emitPositions, alignerSpecEmit, if_pos h, List.map_cons]
        rw [ih1, rowOf_eq_spec]
      · simp only [emitPositions, alignerSpecEmit, if_pos h]
        exact ih2
    · rw [emitPositions_of_le w tokens.length (n + 1) cur (Nat.le_of_not_lt h)]
      simp only [alignerSpecEmit, if_neg h]
      exact ⟨List.map_nil, trivial⟩

theorem align_rows_eq_spec (encode : String → List Nat) (tokens : List String)
    (embeddings : Tensor3) :
    ∀ (ws : List WordInfo) (cur : Nat),
      (token_positions encode tokens.length ws cur).map (rowOf tokens embeddings) =
        alignerSpec escapeNewlines encode tokens embeddings ws cur := by
  intro ws
  induction ws with
  | nil => intro cur; rfl
  | cons w ws ih =>
    intro cur
    obtain ⟨h1, h2⟩ := emit_eq_specEmit tokens embeddings w (encode w.word).length cur
    simp only [token_positions, alignerSpec, List.map_append]
    rw [h1, h2, ih]

theorem getD_of_lt {α : Type _} (l : List α) (d : α) (n : Nat) (h : n < l.length) :
    l.getD n d = l[n] := by
  simp [List.getD_eq_getElem?_getD, List.getElem?_eq_getElem h]

theorem specLayerStats_getD (embeddings : Tensor3) (t i : Nat) (hi : i < embeddings.shape1) :
    (specLayerStats embeddings t).getD i default =
      { mean := arithmeticMean (embeddings.vec t i)
        std := populationStd (embeddings.vec t i)
        norm := euclideanNorm (embeddings.vec t i) } := by
  unfold specLayerStats
  rw [getD_of_lt _ _ i (by simpa using hi)]
  simp

/-- C1: for every word sequence, token sequence, and embedding tensor, and any
per-word re-tokenization behavior `encode`, the aligner emits at most
`tokens.length` rows, and every emitted position carries a token index
strictly below the token sequence length, so no token or embedding access
indexes past the token sequence bounds. -/
theorem aligner_emits_within_bounds (encode : String → List Nat) (words : List WordInfo)
    (tokens : List String) (embeddings : Tensor3) :
    (align_embeddings_to_words encode words tokens embeddings).1.length ≤ tokens.length ∧
    ∀ p ∈ token_positions encode tokens.length words 0, p.token_idx < tokens.length := by
  obtain ⟨h1, h2⟩ := token_positions_spec encode tokens.length words 0 (Nat.zero_le _)
  constructor
  · have hlen : (token_positions encode tokens.length words 0).length ≤ tokens.length := by omega
    simpa [align_embeddings_to_words] using hlen
  · intro p hp
    have hidx := List.mem_map_of_mem TokenPos.token_idx hp
    rw [h1] at hidx
    have hmem := List.mem_range'_1.mp hidx
    omega

theorem aligner_emits_within_bounds_witness :
    (⟨"hello", 0, 1, 0⟩ : TokenPos) ∈
      token_positions (fun _ => [0, 1]) (["he", "llo", "x"] : List String).length
        [⟨"hello", 0, 1⟩] 0 ∧
    (align_embeddings_to_words (fun _ => [0, 1]) [⟨"hello", 0, 1⟩] ["he", "llo", "x"]
      ⟨3, 0, 0, fun _ _ _ => 0⟩).1.length ≤ (["he", "llo", "x"] : List String).length ∧
    (⟨"hello", 0, 1, 0⟩ : TokenPos).token_idx < (["he", "llo", "x"] : List String).length := by
  refine ⟨by decide, ?_, ?_⟩
  · exact (aligner_emits_within_bounds (fun _ => [0, 1]) [⟨"hello", 0, 1⟩] ["he", "llo", "x"]
      ⟨3, 0, 0, fun _ _ _ => 0⟩).1
  · exact (aligner_emits_within_bounds (fun _ => [0, 1]) [⟨"hello", 0, 1⟩] ["he", "llo", "x"]
      ⟨3, 0, 0, fun _ _ _ => 0⟩).2 ⟨"hello", 0, 1, 0⟩ (by decide)

/-- C2 (amended): the aligner's output table equals the spec's greedy
single-cursor algorithm, with the one amendment that each emitted row carries
the token string at the cursor position with newline characters escaped
(`"\n"` replaced by `"\\n"`), rather than the raw token string. -/
theorem aligner_follows_greedy_spec (encode : String → List Nat) (words : List WordInfo)
    (tokens : List String) (embeddings : Tensor3) :
    (align_embeddings_to_words encode words tokens embeddings).1 =
      alignerSpec escapeNewlines encode tokens embeddings words 0 :=
  align_rows_eq_spec encode tokens embeddings words 0

/-- C2 (counterexample to the literal claim): on a token sequence whose token
is a newline character, the row emitted by the source carries the escaped
string, not the token string at the cursor position, so the output differs
from the literal greedy algorithm (rendering tokens unchanged). -/
theorem aligner_literal_greedy_cex :
    (align_embeddings_to_words (fun _ => [0]) [⟨"a", 0, 1⟩] ["\n"]
        ⟨1, 0, 0, fun _ _ _ => 0⟩).1 ≠
      alignerSpec (fun s => s) (fun _ => [0]) ["\n"] ⟨1, 0, 0, fun _ _ _ => 0⟩
        [⟨"a", 0, 1⟩] 0 := by
  intro h
  have h2 := congrArg (fun l => (l.getD 0 default).token) h
  simp only [align_embeddings_to_words, token_positions, emitPositions, rowOf, alignerSpec,
    alignerSpecEmit, specLayerStats, List.map_cons, List.map_nil, List.length_cons,
    List.length_nil, List.append_nil, List.nil_append, List.getD] at h2
  exact absurd h2 (by decide)

/-- C3: every row of the aligned table carries one statistics triple per layer
of the tensor, and for each layer index the `layer_i_mean`, `layer_i_std` and
`layer_i_norm` entries are the arithmetic mean, the population standard
deviation, and the Euclidean (L2) norm of that layer's vector at the row's
token index. -/
theorem aligner_layer_statistics (encode : String → List Nat) (words : List WordInfo)
    (tokens : List String) (embeddings : Tensor3) (j i : Nat)
    (hj : j < (align_embeddings_to_words encode words tokens embeddings).1.length)
    (hi : i < embeddings.shape1) :
    ((align_embeddings_to_words encode words tokens embeddings).1.getD j default).layers.length =
      embeddings.shape1 ∧
    ((align_embeddings_to_words encode words tokens embeddings).1.getD j
        default).layers.getD i default =
      { mean := arithmeticMean (embeddings.vec
          ((token_positions encode tokens.length words 0).getD j default).token_idx i)
        std := populationStd (embeddings.vec
          ((token_positions encode tokens.length words 0).getD j default).token_idx i)
        norm := euclideanNorm (embeddings.vec
          ((token_positions encode tokens.length words 0).getD j default).token_idx i) } := by
  have hj' : j < (token_positions encode tokens.length words 0).length := by
    simpa [align_embeddings_to_words] using hj
  have hrow : (align_embeddings_to_words encode words tokens embeddings).1.getD j default =
      rowOf tokens embeddings ((token_positions encode tokens.length words 0).getD j default) := by
    rw [getD_of_lt _ _ j hj, getD_of_lt _ _ j hj']
    simp [align_embeddings_to_words]
  rw [hrow, rowOf_eq_spec]
  exact ⟨by simp [specLayerStats], specLayerStats_getD embeddings _ i hi⟩

theorem aligner_layer_statistics_witness :
    0 < (align_embeddings_to_words (fun _ => [0]) [⟨"hi", 0, 1⟩] ["hi"]
      ⟨1, 1, 1, fun _ _ _ => 2⟩).1.length ∧
    0 < (⟨1, 1, 1, fun _ _ _ => 2⟩ : Tensor3).shape1 ∧
    (((align_embeddings_to_words (fun _ => [0]) [⟨"hi", 0, 1⟩] ["hi"]
        ⟨1, 1, 1, fun _ _ _ => 2⟩).1.getD 0 default).layers.length =
      (⟨1, 1, 1, fun _ _ _ => 2⟩ : Tensor3).shape1 ∧
    ((align_embeddings_to_words (fun _ => [0]) [⟨"hi", 0, 1⟩] ["hi"]
        ⟨1, 1, 1, fun _ _ _ => 2⟩).1.getD 0 default).layers.getD 0 default =
      { mean := arithmeticMean ((⟨1, 1, 1, fun _ _ _ => 2⟩ : Tensor3).vec
          ((token_positions (fun _ => [0]) (["hi"] : List String).length [⟨"hi", 0, 1⟩] 0).getD 0
            default).token_idx 0)
        std := populationStd ((⟨1, 1, 1, fun _ _ _ => 2⟩ : Tensor3).vec
          ((token_positions (fun _ => [0]) (["hi"] : List String).length [⟨"hi", 0, 1⟩] 0).getD 0
            default).token_idx 0)
        norm := euclideanNorm ((⟨1, 1, 1, fun _ _ _ => 2⟩ : Tensor3).vec
          ((token_positions (fun _ => [0]) (["hi"] : List String).length [⟨"hi", 0, 1⟩] 0).getD 0
            default).token_idx 0) }) := by
  refine ⟨?h1, by decide, ?_⟩
  case h1 => simp [align_embeddings_to_words]; decide
  exact aligner_layer_statistics (fun _ => [0]) [⟨"hi", 0, 1⟩] ["hi"] ⟨1, 1, 1, fun _ _ _ => 2⟩
    0 0 (by simp [align_embeddings_to_words]; decide) (by decide)

/-- C9: the aligner returns the embedding tensor and the token list it was
given, unchanged, alongside the table it produces. -/
theorem aligner_passthrough (encode : String → List Nat) (words : List WordInfo)
    (tokens : List String) (embeddings : Tensor3) :
    (align_embeddings_to_words encode words tokens embeddings).2.1 = embeddings ∧
    (align_embeddings_to_words encode words tokens embeddings).2.2 = tokens :=
  ⟨rfl, rfl⟩

/-- C10: the token indices consumed by the aligner's emitted rows are exactly
0, 1, ..., k-1 in order, where k is the number of rows (each position's token
index equals its position in the table, none skipped or reused), and once the
cursor has reached the token sequence length no row is emitted for any later
word. -/
theorem aligner_consumes_initial_segment (encode : String → List Nat) (words : List WordInfo)
    (tokens : List String) (embeddings : Tensor3) :
    (align_embeddings_to_words encode words tokens embeddings).1.length =
      (token_positions encode tokens.length words 0).length ∧
    (token_positions encode tokens.length words 0).map TokenPos.token_idx =
      List.range (token_positions encode tokens.length words 0).length ∧
    ∀ (ws : List WordInfo) (cur : Nat), tokens.length ≤ cur →
      token_positions encode tokens.length ws cur = [] := by
  refine ⟨by simp [align_embeddings_to_words], ?_, ?_⟩
  · obtain ⟨h1, _⟩ := token_positions_spec encode tokens.length words 0 (Nat.zero_le _)
    rw [h1, List.range_eq_range']
  · exact fun ws cur h => token_positions_of_le encode tokens.length ws cur h

theorem aligner_consumes_initial_segment_witness :
    (["x"] : List String).length ≤ 1 ∧
    (align_embeddings_to_words (fun _ => [0]) [⟨"a", 0, 1⟩] ["x"]
        ⟨1, 0, 0, fun _ _ _ => 0⟩).1.length =
      (token_positions (fun _ => [0]) (["x"] : List String).length [⟨"a", 0, 1⟩] 0).length ∧
    token_positions (fun _ => [0]) (["x"] : List String).length [⟨"a", 0, 1⟩] 1 = [] := by
  refine ⟨by decide, ?_, ?_⟩
  · exact (aligner_consumes_initial_segment (fun _ => [0]) [⟨"a", 0, 1⟩] ["x"]
      ⟨1, 0, 0, fun _ _ _ => 0⟩).1
  · exact (aligner_consumes_initial_segment (fun _ => [0]) [⟨"a", 0, 1⟩] ["x"]
      ⟨1, 0, 0, fun _ _ _ => 0⟩).2.2 [⟨"a", 0, 1⟩] 1 (by decide)

/-- C4: whenever not all of the requested statistic's per-layer columns are
present in the aligned table, the visualizer warns and returns without
writing any image file (and, being a total function, without raising). -/
theorem visualizer_silent_skip (df : List AlignedRow) (embeddings : Tensor3)
    (output_path metric : String)
    (h : ((layer_cols embeddings.shape1 metric).all
      fun col => (dfColumns df).contains col) = false) :
    visualize_embeddings df embeddings output_path metric = { warned := true, written := none } := by
  simp only [visualize_embeddings, h]
  rfl

theorem visualizer_silent_skip_witness :
    ((layer_cols (⟨0, 1, 0, fun _ _ _ => 0⟩ : Tensor3).shape1 ("norm")).all
      fun col => (dfColumns []).contains col) = false ∧
    visualize_embeddings [] ⟨0, 1, 0, fun _ _ _ => 0⟩ ("out.png") ("norm") =
      { warned := true, written := none } :=
  ⟨by decide, visualizer_silent_skip [] ⟨0, 1, 0, fun _ _ _ => 0⟩ ("out.png") ("norm") (by decide)⟩

/-- C5: the audio loader raises the not-found error exactly when the path does
not exist, and in that case the result does not depend on the decoder at all
(the existence check comes first); when the path exists, a decode failure is
wrapped in the load error and a decode success is returned as the signal the
decoder produced for the target sample rate in mono. -/
theorem load_audio_error_contract (fsExists : String → Bool)
    (decode : String → Nat → Bool → Except String (List ℚ)) (audio_path : String) (sr : Nat) :
    (fsExists audio_path = false →
      load_audio fsExists decode audio_path sr =
        .notFound ("Audio file not found: " ++ audio_path)) ∧
    (∀ m, load_audio fsExists decode audio_path sr = .notFound m →
      fsExists audio_path = false) ∧
    (fsExists audio_path = false → ∀ d2,
      load_audio fsExists decode audio_path sr = load_audio fsExists d2 audio_path sr) ∧
    (fsExists audio_path = true → ∀ e, decode audio_path sr true = .error e →
      load_audio fsExists decode audio_path sr =
        .loadErr ("Failed to load audio file: " ++ e ++
          "\nSupported formats: WAV, MP3, FLAC, OGG, M4A")) ∧
    (fsExists audio_path = true → ∀ audio, decode audio_path sr true = .ok audio →
      load_audio fsExists decode audio_path sr = .ok audio) := by
  refine ⟨?_, ?_, ?_, ?_, ?_⟩
  · intro h
    simp [load_audio, h]
  · intro m hm
    cases hv : fsExists audio_path
    · rfl
    · exfalso
      simp only [load_audio, hv] at hm
      cases hd : decode audio_path sr true
      · rw [hd] at hm
        simp at hm
      · rw [hd] at hm
        simp at hm
  · intro h d2
    simp [load_audio, h]
  · intro h e hd
    simp [load_audio, h, hd]
  · intro h audio hd
    simp [load_audio, h, hd]

theorem load_audio_error_contract_witness :
    ((fun _ : String => false) ("missing.wav") = false) ∧
    load_audio (fun _ => false) (fun _ _ _ => .ok []) ("missing.wav") 16000 =
      .notFound ("Audio file not found: " ++ "missing.wav") :=
  ⟨rfl, (load_audio_error_contract (fun _ => false) (fun _ _ _ => .ok [])
    ("missing.wav") 16000).1 rfl⟩

/-- C6: the entry point's exit code is 0 on success, 1 on file-not-found, on
any runtime/processing error and on any unexpected exception, and 130 on user
interrupt; for a missing input file the run exits with code 1, prints an
error message containing the file path, and performs no file write (only the
output directory is created). -/
theorem main_exit_codes (cfg : PipelineCfg) (audio_file output_dir : String) :
    (∀ r : List AlignedRow × String × String, exit_code (Except.ok r) = 0) ∧
    (∀ m, exit_code
      (Except.error (PyErr.fileNotFound m) : Except PyErr (List AlignedRow × String × String)) = 1) ∧
    (∀ m, exit_code
      (Except.error (PyErr.runtimeError m) : Except PyErr (List AlignedRow × String × String)) = 1) ∧
    (∀ m, exit_code
      (Except.error (PyErr.other m) : Except PyErr (List AlignedRow × String × String)) = 1) ∧
    exit_code
      (Except.error PyErr.keyboardInterrupt : Except PyErr (List AlignedRow × String × String)) = 130 ∧
    (cfg.fsExists audio_file = false →
      main cfg audio_file output_dir =
        (1, some ("\nError: " ++ ("Audio file not found: " ++ audio_file)),
          [Effect.mkdirParents output_dir]) ∧
      ((main cfg audio_file output_dir).2.2.filter Effect.isFileWrite) = []) := by
  refine ⟨fun r => rfl, fun m => rfl, fun m => rfl, fun m => rfl, rfl, ?_⟩
  intro h
  have hload : load_audio cfg.fsExists cfg.decode audio_file 16000 =
      .notFound ("Audio file not found: " ++ audio_file) := by
    simp [load_audio, h]
  have hp : process_audio_file cfg audio_file output_dir =
      (.error (.fileNotFound ("Audio file not found: " ++ audio_file)),
        [Effect.mkdirParents output_dir]) := by
    simp only [process_audio_file, hload]
  constructor
  · simp only [main, hp]
    rfl
  · simp only [main, hp]
    rfl

/-- Fixture: a pipeline configuration whose filesystem reports every path as
absent. -/
def cfgNoFile : PipelineCfg :=
  { fsExists := fun _ => false
    decode := fun _ _ _ => .ok []
    transcribeRaw := fun _ => .error ("")
    tokenize := fun _ => []
    decodeToken := fun _ => ""
    n_layer := 0
    n_embd := 0
    forward := fun _ => .ok (fun _ _ _ => 0)
    encode := fun _ => [] }

theorem main_exit_codes_witness :
    cfgNoFile.fsExists ("does_not_exist.wav") = false ∧
    (main cfgNoFile ("does_not_exist.wav") ("outdir") =
      (1, some ("\nError: " ++ ("Audio file not found: " ++ "does_not_exist.wav")),
        [Effect.mkdirParents ("outdir")]) ∧
    ((main cfgNoFile ("does_not_exist.wav") ("outdir")).2.2.filter Effect.isFileWrite) = []) :=
  ⟨rfl, (main_exit_codes cfgNoFile ("does_not_exist.wav") ("outdir")).2.2.2.2.2 rfl⟩

/-- C7: when the model forward pass succeeds, the extractor's tensor has first
dimension equal to the number of tokens obtained by tokenizing the exact
input text (= the length of the returned token list), second dimension equal
to the model's layer count, and its entries are the hidden states shifted by
one layer: the initial embedding layer (hidden state 0) is excluded and the
transformer blocks' outputs are kept in model layer order. -/
theorem extractor_shape (tokenize : String → List Nat) (decodeToken : Nat → String)
    (n_layer n_embd : Nat) (forward : List Nat → Except PyErr (Nat → Nat → Nat → ℚ))
    (text : String) (hidden : Nat → Nat → Nat → ℚ)
    (hf : forward (tokenize text) = .ok hidden) :
    ∃ emb tokens,
      extract_gpt2_embeddings tokenize decodeToken n_layer n_embd forward text =
        .ok (emb, tokens) ∧
      emb.shape0 = (tokenize text).length ∧
      emb.shape0 = tokens.length ∧
      emb.shape1 = n_layer ∧
      ∀ t l d, l < n_layer → emb.entry t l d = hidden (l + 1) t d := by
  have hdrop : ((List.range (n_layer + 1)).map (fun l => hidden l)).drop 1 =
      (List.range' 1 n_layer).map (fun l => hidden l) := by
    rw [List.range_eq_range', List.range'_succ]
    simp
  refine ⟨⟨(tokenize text).length,
      (((List.range (n_layer + 1)).map (fun l => hidden l)).drop 1).length,
      n_embd,
      fun t l d => ((((List.range (n_layer + 1)).map (fun l => hidden l)).drop 1).getD l
        (fun _ _ => 0)) t d⟩,
    (tokenize text).map (fun token_id => decodeToken token_id), ?_, ?_, ?_, ?_, ?_⟩
  · simp only [extract_gpt2_embeddings, hf]
  · rfl
  · simp
  · show (((List.range (n_layer + 1)).map (fun l => hidden l)).drop 1).length = n_layer
    rw [hdrop]
    simp
  · intro t l d hl
    show ((((List.range (n_layer + 1)).map (fun l => hidden l)).drop 1).getD l
      (fun _ _ => 0)) t d = hidden (l + 1) t d
    rw [hdrop, getD_of_lt _ _ l (by simpa using hl)]
    simp
    rw [Nat.add_comm]

theorem extractor_shape_witness :
    ((fun _ : List Nat =>
        (Except.ok (fun (l _ _ : Nat) => (l : ℚ)) : Except PyErr (Nat → Nat → Nat → ℚ)))
      ((fun _ : String => [5, 6]) ("x")) = Except.ok (fun (l _ _ : Nat) => (l : ℚ))) ∧
    ∃ emb tokens,
      extract_gpt2_embeddings (fun _ => [5, 6]) (fun _ => "t") 2 3
          (fun _ => (Except.ok (fun (l _ _ : Nat) => (l : ℚ)) : Except PyErr (Nat → Nat → Nat → ℚ)))
          ("x") =
        .ok (emb, tokens) ∧
      emb.shape0 = ((fun _ : String => [5, 6]) ("x")).length ∧
      emb.shape0 = tokens.length ∧
      emb.shape1 = 2 ∧
      ∀ t l d, l < 2 → emb.entry t l d = (fun (l _ _ : Nat) => (l : ℚ)) (l + 1) t d :=
  ⟨rfl, extractor_shape (fun _ => [5, 6]) (fun _ => "t") 2 3
    (fun _ => (Except.ok (fun (l _ _ : Nat) => (l : ℚ)) : Except PyErr (Nat → Nat → Nat → ℚ))) ("x")
    (fun (l _ _ : Nat) => (l : ℚ)) rfl⟩

/-- C8: on a successful run, the pipeline's effect sequence starts with the
recursive creation of the output directory, immediately followed by the CSV
write at the caller-derived path inside that directory, whose single header
row holds the DataFrame columns; and for a nonempty table those columns are
exactly the keys of the first row, in first-row order. -/
theorem exporter_writes_table (cfg : PipelineCfg) (audio_path output_dir : String)
    (audio : List ℚ) (tr : Transcription) (emb : Tensor3) (toks : List String)
    (h1 : cfg.fsExists audio_path = true)
    (h2 : cfg.decode audio_path 16000 true = .ok audio)
    (h3 : cfg.transcribeRaw audio = .ok tr)
    (h4 : extract_gpt2_embeddings cfg.tokenize cfg.decodeToken cfg.n_layer cfg.n_embd
      cfg.forward tr.text = .ok (emb, toks)) :
    (∃ rest, (process_audio_file cfg audio_path output_dir).2 =
      Effect.mkdirParents output_dir ::
        Effect.writeCsv (output_dir ++ "/" ++ stem audio_path ++ "_embeddings.csv")
          (dfColumns (align_embeddings_to_words cfg.encode tr.words toks emb).1)
          (align_embeddings_to_words cfg.encode tr.words toks emb).1.length :: rest) ∧
    ∀ (r : AlignedRow) (rs : List AlignedRow),
      (align_embeddings_to_words cfg.encode tr.words toks emb).1 = r :: rs →
      dfColumns (align_embeddings_to_words cfg.encode tr.words toks emb).1 = rowKeys r := by
  have hload : load_audio cfg.fsExists cfg.decode audio_path 16000 = .ok audio := by
    simp [load_audio, h1, h2]
  have htr : transcribe_with_timestamps cfg.transcribeRaw audio = .ok tr := by
    simp [transcribe_with_timestamps, h3]
  constructor
  · refine ⟨Effect.writeNpy ((output_dir ++ "/" ++ stem audio_path ++ "_embeddings.csv").replace
        (".csv") ("_full.npy")) ::
      (match (visualize_embeddings (align_embeddings_to_words cfg.encode tr.words toks emb).1
          (align_embeddings_to_words cfg.encode tr.words toks emb).2.1
          (output_dir ++ "/" ++ stem audio_path ++ "_visualization.png") ("norm")).written with
        | some p => [Effect.writePng p]
        | none => []), ?_⟩
    simp only [process_audio_file, hload, htr, h4, save_embeddings]
    rfl
  · intro r rs hdf
    rw [hdf]
    rfl

/-- Fixture: a pipeline configuration whose oracles all succeed on a
one-word, one-token input with a zero-layer model. -/
def cfgSmall : PipelineCfg :=
  { fsExists := fun _ => true
    decode := fun _ _ _ => .ok []
    transcribeRaw := fun _ => .ok ⟨"a", [⟨"a", 0, 1⟩]⟩
    tokenize := fun _ => [7]
    decodeToken := fun _ => "a"
    n_layer := 0
    n_embd := 0
    forward := fun _ => .ok (fun _ _ _ => 0)
    encode := fun _ => [0] }

theorem exporter_writes_table_witness :
    cfgSmall.fsExists ("a.wav") = true ∧
    cfgSmall.decode ("a.wav") 16000 true = .ok [] ∧
    cfgSmall.transcribeRaw [] = .ok ⟨"a", [⟨"a", 0, 1⟩]⟩ ∧
    extract_gpt2_embeddings cfgSmall.tokenize cfgSmall.decodeToken cfgSmall.n_layer
      cfgSmall.n_embd cfgSmall.forward (Transcription.mk ("a") [⟨"a", 0, 1⟩]).text =
      .ok (⟨1, 0, 0, fun _ _ _ => 0⟩, ["a"]) ∧
    ∃ rest, (process_audio_file cfgSmall ("a.wav") ("out")).2 =
      Effect.mkdirParents ("out") ::
        Effect.writeCsv ("out" ++ "/" ++ stem ("a.wav") ++ "_embeddings.csv")
          (dfColumns (align_embeddings_to_words cfgSmall.encode
            (Transcription.mk ("a") [⟨"a", 0, 1⟩]).words ["a"] ⟨1, 0, 0, fun _ _ _ => 0⟩).1)
          (align_embeddings_to_words cfgSmall.encode
            (Transcription.mk ("a") [⟨"a", 0, 1⟩]).words ["a"] ⟨1, 0, 0, fun _ _ _ => 0⟩).1.length ::
        rest :=
  ⟨rfl, rfl, rfl, rfl,
    (exporter_writes_table cfgSmall ("a.wav") ("out") [] (Transcription.mk ("a") [⟨"a", 0, 1⟩])
      ⟨1, 0, 0, fun _ _ _ => 0⟩ ["a"] rfl rfl rfl rfl).1⟩
